import Mathlib

/-!
Verification of the OTA firmware-update pipeline of the `esp` repository.

The development shallowly embeds the two revisions of the `POST /update`
handler (`add_update_handler` in `src/http_server.rs` and the inline handler
in `http_server_init` in `src/main.rs`) and the base-36 hostname encoder
(`src/base36.rs`).

Modelling conventions:
- The request body stream is a function `Nat → ReadResult`: the result of the
  i-th call to `request.read`, either a byte count (`ok n`) or an I/O error.
  Byte values are irrelevant to every property considered, so only counts are
  tracked.
- Every fallible external call of the handler (EspOta construction and slot
  queries, `initiate_update`, `ota_updater.write`, `abort`, `complete`,
  `EspTimerService::new`, `timer`, `into_ok_response`, `timer.after`,
  `into_status_response`) is driven by a corresponding field of `Env`.
  `writeOk k` decides the outcome of the k-th `ota_updater.write` call.
- The `loop { ... }` is embedded as a fuel-indexed step function `runLoop`;
  `none` means the loop did not finish within the given fuel (the loop has
  genuinely non-terminating runs, which one claim is about).
- `running_slot.firmware.unwrap()` is assumed not to panic (slot metadata
  present); no claim concerns it.
- The handler closure's observable behaviour is collected in a `Trace`:
  which HTTP status line was sent (if any), whether the closure returned
  `Ok`, whether an OTA write transaction was opened, the sizes of the chunks
  successfully written, how often `complete` (commit) and `abort` were
  called, whether the reboot timer was armed and with which delay, the final
  byte counter, the number of `request.read` calls, and which event ended
  the streaming loop.
-/

namespace Esp

/-- Outcome of one `request.read(&mut buffer)` call: `ok n` means `n` bytes
were read into the buffer, `err` means the read returned an error. -/
inductive ReadResult where
  | ok (n : Nat)
  | err
  deriving DecidableEq

/-- The request data the `/update` handlers inspect: the `Content-Type`
header and the declared body length (`request.content_len()`). -/
structure Request where
  contentType : Option String
  contentLen : Option Nat
  deriving DecidableEq

/-- Environment driving every fallible external call made by the handler. -/
structure Env where
  readAt : Nat → ReadResult
  otaQueryOk : Bool
  initiateOk : Bool
  writeOk : Nat → Bool
  abortOk : Bool
  completeOk : Bool
  timerSvcOk : Bool
  timerCreateOk : Bool
  okRespOk : Bool
  afterOk : Bool
  statusRespOk : Bool

/-- The event that ended the streaming loop of the handler. -/
inductive LoopExit where
  | completed
  | completeFailed
  | writeAborted
  | abortFailed
  | readFailed
  deriving DecidableEq

/-- Mutable state of the streaming loop: index of the next read,
`total_bytes_read`, number of `ota_updater.write` calls made so far, and the
chunk sizes written successfully, in order. -/
structure LoopState where
  idx : Nat
  total : Nat
  wIdx : Nat
  writes : List Nat
  deriving DecidableEq

def initLoopState : LoopState := { idx := 0, total := 0, wIdx := 0, writes := [] }

def OTA_PARTITION_SIZE : Nat := 0x1f0000

/-- `usize` is 32 bits wide on the ESP32 targets this firmware builds for,
so the `size as usize` cast of the `u64` declared content length
(`src/http_server.rs` line 298, `src/main.rs` line 113) keeps only the low
32 bits of the value. -/
def USIZE_MOD : Nat := 0x100000000

def CONTENT_TYPE_OCTET_STEAM : String := "application/octet-stream"
def STATUS_CODE_LENGTH_REQUIRED : Nat := 411
def STATUS_CODE_REQUEST_ENTITY_TO_LARGE : Nat := 413
def STATUS_CODE_UNSUPPORTED_MEDIA_TYPE : Nat := 415

/-- One-to-one embedding of the `loop { ... }` of `add_update_handler`
(`src/http_server.rs`, lines 321-339): read a chunk (a read error propagates
out of the closure via `?`), add its size to `total_bytes_read`, write any
non-empty chunk to the OTA transaction (on write failure call `abort` and
break; `abort()?` failing propagates), and when `total_bytes_read >=
firmware_size` call `complete` and break (`complete()?` failing propagates).
Fuel bounds the number of iterations; `none` means the fuel ran out. -/
def runLoop (env : Env) (size : Nat) : Nat → LoopState → Option (LoopExit × LoopState)
  | 0, _ => none
  | fuel + 1, st =>
    match env.readAt st.idx with
    | .err => some (.readFailed, { st with idx := st.idx + 1 })
    | .ok n =>
      let st1 : LoopState := { st with idx := st.idx + 1, total := st.total + n }
      if 0 < n then
        if env.writeOk st1.wIdx then
          let st2 : LoopState :=
            { st1 with wIdx := st1.wIdx + 1, writes := st1.writes ++ [n] }
          if size ≤ st2.total then
            some (if env.completeOk then .completed else .completeFailed, st2)
          else
            runLoop env size fuel st2
        else
          some (if env.abortOk then .writeAborted else .abortFailed,
                { st1 with wIdx := st1.wIdx + 1 })
      else
        if size ≤ st1.total then
          some (if env.completeOk then .completed else .completeFailed, st1)
        else
          runLoop env size fuel st1

/-- Observable behaviour of one handler invocation. -/
structure Trace where
  status : Option Nat
  closureOk : Bool
  txOpened : Bool
  writes : List Nat
  commitCalls : Nat
  abortCalls : Nat
  restartArmed : Bool
  restartDelaySecs : Option Nat
  totalBytes : Nat
  readCalls : Nat
  loopExit : Option LoopExit
  deriving DecidableEq

/-- Trace of a validation rejection: `into_status_response(code)?` (plus the
body write on the 415 path); if that response write fails the closure
returns `Err` without a status line. No storage action is taken. -/
def rejectTrace (env : Env) (code : Nat) : Trace :=
  { status := if env.statusRespOk then some code else none,
    closureOk := env.statusRespOk, txOpened := false, writes := [],
    commitCalls := 0, abortCalls := 0, restartArmed := false,
    restartDelaySecs := none, totalBytes := 0, readCalls := 0, loopExit := none }

/-- Trace of a failure of `EspOta::new`, the slot queries, or
`initiate_update`: the closure propagates the error before any transaction
is open. -/
def internalErrTrace : Trace :=
  { status := none, closureOk := false, txOpened := false, writes := [],
    commitCalls := 0, abortCalls := 0, restartArmed := false,
    restartDelaySecs := none, totalBytes := 0, readCalls := 0, loopExit := none }

/-- How many times `ota_updater.complete()` was called, given the loop
exit. -/
def commitCallsOf : LoopExit → Nat
  | .completed => 1
  | .completeFailed => 1
  | _ => 0

/-- How many times `ota_updater.abort()` was called, given the loop exit. -/
def abortCallsOf : LoopExit → Nat
  | .writeAborted => 1
  | .abortFailed => 1
  | _ => 0

/-- Trace right after the streaming loop ended, before the epilogue. -/
def loopTrace (ex : LoopExit) (st : LoopState) : Trace :=
  { status := none, closureOk := false, txOpened := true, writes := st.writes,
    commitCalls := commitCallsOf ex, abortCalls := abortCallsOf ex,
    restartArmed := false, restartDelaySecs := none,
    totalBytes := st.total, readCalls := st.idx, loopExit := some ex }

/-- The epilogue both revisions fall through to after the loop breaks
(lines 341-349 of `src/http_server.rs`): create the timer service and the
timer, send the `200 OK` response, then arm the reboot timer for 5 seconds.
Each step is fallible via `?`; note that `into_ok_response()?` runs before
`reboot_timer.after(...)?`, so a failed response write skips the arming. -/
def finishHandler (env : Env) (t : Trace) : Trace :=
  if env.timerSvcOk then
    if env.timerCreateOk then
      if env.okRespOk then
        if env.afterOk then
          { t with status := some 200, closureOk := true, restartArmed := true,
                   restartDelaySecs := some 5 }
        else
          { t with status := some 200 }
      else t
    else t
  else t

/-- Embedding of `add_update_handler` of `src/http_server.rs` (lines
278-353): content-type check (415), declared-length check (411), capacity
check (413), then OTA setup, the streaming loop, and the common epilogue.
The two loop exits produced by `break` (`completed`, `writeAborted`) fall
through to the epilogue; the exits produced by `?` (`readFailed`,
`completeFailed`, `abortFailed`) leave the closure with an error. The
declared length is a `u64` and is cast with `size as usize` before the
capacity check, which on the 32-bit target truncates it modulo `2^32`. -/
def handleUpdate (req : Request) (env : Env) (fuel : Nat) : Option Trace :=
  if req.contentType = some CONTENT_TYPE_OCTET_STEAM then
    match req.contentLen with
    | none => some (rejectTrace env STATUS_CODE_LENGTH_REQUIRED)
    | some len =>
      let size := len % USIZE_MOD
      if OTA_PARTITION_SIZE < size then
        some (rejectTrace env STATUS_CODE_REQUEST_ENTITY_TO_LARGE)
      else if env.otaQueryOk then
        if env.initiateOk then
          match runLoop env size fuel initLoopState with
          | none => none
          | some (ex, st) =>
            match ex with
            | .completed => some (finishHandler env (loopTrace ex st))
            | .writeAborted => some (finishHandler env (loopTrace ex st))
            | .completeFailed => some (loopTrace ex st)
            | .abortFailed => some (loopTrace ex st)
            | .readFailed => some (loopTrace ex st)
        else some internalErrTrace
      else some internalErrTrace
  else
    some (rejectTrace env STATUS_CODE_UNSUPPORTED_MEDIA_TYPE)

/-- The `main.rs` revision reads with
`request.read(&mut buffer).unwrap_or_default()`: a read error is treated as
a zero-byte read. -/
def readAtMain (env : Env) (i : Nat) : Nat :=
  match env.readAt i with
  | .ok n => n
  | .err => 0

/-- The streaming loop of the `/update` handler in `src/main.rs` (lines
136-154): identical to `runLoop` except that a read error is collapsed to a
zero-byte read, so the `readFailed` exit never occurs. -/
def runLoopMain (env : Env) (size : Nat) : Nat → LoopState → Option (LoopExit × LoopState)
  | 0, _ => none
  | fuel + 1, st =>
    let n := readAtMain env st.idx
    let st1 : LoopState := { st with idx := st.idx + 1, total := st.total + n }
    if 0 < n then
      if env.writeOk st1.wIdx then
        let st2 : LoopState :=
          { st1 with wIdx := st1.wIdx + 1, writes := st1.writes ++ [n] }
        if size ≤ st2.total then
          some (if env.completeOk then .completed else .completeFailed, st2)
        else
          runLoopMain env size fuel st2
      else
        some (if env.abortOk then .writeAborted else .abortFailed,
              { st1 with wIdx := st1.wIdx + 1 })
    else
      if size ≤ st1.total then
        some (if env.completeOk then .completed else .completeFailed, st1)
      else
        runLoopMain env size fuel st1

/-- Embedding of the `/update` handler registered in `http_server_init` of
`src/main.rs` (lines 111-173): no content-type check, a missing declared
length defaults to 0 (`content_len().unwrap_or(0)`), then the same capacity
check, OTA setup, streaming loop (with read errors collapsed to zero-byte
reads), a shortfall log with no behavioural effect, and the same epilogue.
`content_len().unwrap_or(0) as usize` truncates the `u64` length modulo
`2^32` on the 32-bit target, exactly as in the other revision. -/
def handleUpdateMain (req : Request) (env : Env) (fuel : Nat) : Option Trace :=
  let size := req.contentLen.getD 0 % USIZE_MOD
  if OTA_PARTITION_SIZE < size then
    some (rejectTrace env STATUS_CODE_REQUEST_ENTITY_TO_LARGE)
  else if env.otaQueryOk then
    if env.initiateOk then
      match runLoopMain env size fuel initLoopState with
      | none => none
      | some (ex, st) =>
        match ex with
        | .completed => some (finishHandler env (loopTrace ex st))
        | .writeAborted => some (finishHandler env (loopTrace ex st))
        | .completeFailed => some (loopTrace ex st)
        | .abortFailed => some (loopTrace ex st)
        | .readFailed => some (loopTrace ex st)
    else some internalErrTrace
  else some internalErrTrace

/-- Byte count delivered by a read outcome (a read error delivers none). -/
def readVal : ReadResult → Nat
  | .ok n => n
  | .err => 0

/-- Total bytes offered by the stream over reads `start, start+1, ...,
start+m-1`. -/
def sumFrom (env : Env) : Nat → Nat → Nat
  | _, 0 => 0
  | start, m + 1 => readVal (env.readAt start) + sumFrom env (start + 1) m

/-- Total bytes offered by the first `m` reads of the stream. -/
def sumReads (env : Env) (m : Nat) : Nat := sumFrom env 0 m

/-- The streaming loop terminates (with some exit) within some fuel. -/
def loopTerminates (env : Env) (size : Nat) : Prop :=
  ∃ fuel, (runLoop env size fuel initLoopState).isSome = true

end Esp

namespace Esp

/-! Embedding of `src/base36.rs`. -/

def BASE : Nat := 36
def BITS_IN_BYTE : Nat := 8
def INPUT_LENGTH : Nat := 6
def OUTPUT_MAX_LENGTH : Nat := 10

def ENCODING_TABLE : List Char :=
  ['a', 'b', 'c', 'd', 'e', 'f', 'g', 'h', 'i', 'j', 'k', 'l', 'm', 'n', 'o',
   'p', 'q', 'r', 's', 't', 'u', 'v', 'w', 'x', 'y', 'z', '0', '1', '2', '3',
   '4', '5', '6', '7', '8', '9']

/-- `ENCODING_TABLE[remainder]`; the source indexes the array directly and
the index is always `number % BASE < 36`, so the default is never hit. -/
def tableAt (i : Nat) : Char := ENCODING_TABLE.getD i ' '

/-- The first loop of `encode`: `number |= (byte as u64) << (BITS_IN_BYTE *
((INPUT_LENGTH - 1) - i))` over the enumerated input bytes. -/
def bytesToNumber (input : List Nat) : Nat :=
  input.enum.foldl
    (fun number p => number ||| p.2 <<< (BITS_IN_BYTE * ((INPUT_LENGTH - 1) - p.1))) 0

/-- The `while number > 0` loop of `encode`, pushing `ENCODING_TABLE[number %
BASE]` and dividing by `BASE`; least-significant digit first. Embedded with
explicit fuel; fuel `number` is always enough since the number strictly
decreases. -/
def toBase36Fuel : Nat → Nat → List Char
  | 0, _ => []
  | fuel + 1, number =>
    if 0 < number then tableAt (number % BASE) :: toBase36Fuel fuel (number / BASE)
    else []

/-- `encode` of `src/base36.rs`: build the 48-bit number from the 6 bytes,
convert to base 36, reverse, and collect into a string. -/
def encode (input : List Nat) : String :=
  String.mk (toBase36Fuel (bytesToNumber input) (bytesToNumber input)).reverse

/-- The value of the input bytes read as a big-endian integer (the
specification's reading of the first loop of `encode`). -/
def beValue (input : List Nat) : Nat :=
  input.foldl (fun acc b => acc * 256 + b) 0

/-- An environment in which every external operation succeeds and the body
stream is given by `reads`. -/
def allOkEnv (reads : Nat → ReadResult) : Env :=
  { readAt := reads, otaQueryOk := true, initiateOk := true,
    writeOk := fun _ => true, abortOk := true, completeOk := true,
    timerSvcOk := true, timerCreateOk := true, okRespOk := true,
    afterOk := true, statusRespOk := true }

/-- An exhausted body stream: every read succeeds but returns 0 bytes. -/
def zeroReadEnv : Env := allOkEnv fun _ => .ok 0

/-- A request with the expected octet-stream content type and the given
declared length. -/
def octetRequest (len : Option Nat) : Request :=
  { contentType := some CONTENT_TYPE_OCTET_STEAM, contentLen := len }

/-- A body stream delivering the given list of chunk sizes, then only
zero-byte reads (the connection is exhausted). -/
def chunkReads (chunks : List Nat) : Nat → ReadResult :=
  fun i => .ok (chunks.getD i 0)

end Esp

namespace Esp

/-! Helper lemmas about the embedded definitions. -/

theorem sumFrom_succ_right (env : Env) : ∀ (m start : Nat),
    sumFrom env start (m + 1) = sumFrom env start m + readVal (env.readAt (start + m)) := by
  intro m
  induction m with
  | zero => intro start; simp [sumFrom]
  | succ m ih =>
    intro start
    have h1 : sumFrom env start (m + 1 + 1) =
        readVal (env.readAt start) + sumFrom env (start + 1) (m + 1) := rfl
    rw [h1, ih (start + 1)]
    have h2 : sumFrom env start (m + 1) =
        readVal (env.readAt start) + sumFrom env (start + 1) m := rfl
    rw [h2]
    have h3 : start + 1 + m = start + (m + 1) := by omega
    rw [h3]
    omega

theorem sumReads_succ (env : Env) (m : Nat) :
    sumReads env (m + 1) = sumReads env m + readVal (env.readAt m) := by
  have := sumFrom_succ_right env m 0
  simpa [sumReads] using this

theorem finishHandler_txOpened (env : Env) (t : Trace) :
    (finishHandler env t).txOpened = t.txOpened := by
  unfold finishHandler
  repeat' split
  all_goals rfl

theorem finishHandler_writes (env : Env) (t : Trace) :
    (finishHandler env t).writes = t.writes := by
  unfold finishHandler
  repeat' split
  all_goals rfl

theorem finishHandler_commitCalls (env : Env) (t : Trace) :
    (finishHandler env t).commitCalls = t.commitCalls := by
  unfold finishHandler
  repeat' split
  all_goals rfl

theorem finishHandler_abortCalls (env : Env) (t : Trace) :
    (finishHandler env t).abortCalls = t.abortCalls := by
  unfold finishHandler
  repeat' split
  all_goals rfl

theorem finishHandler_totalBytes (env : Env) (t : Trace) :
    (finishHandler env t).totalBytes = t.totalBytes := by
  unfold finishHandler
  repeat' split
  all_goals rfl

theorem finishHandler_readCalls (env : Env) (t : Trace) :
    (finishHandler env t).readCalls = t.readCalls := by
  unfold finishHandler
  repeat' split
  all_goals rfl

theorem finishHandler_loopExit (env : Env) (t : Trace) :
    (finishHandler env t).loopExit = t.loopExit := by
  unfold finishHandler
  repeat' split
  all_goals rfl

theorem finishHandler_allOk (env : Env) (t : Trace) (h1 : env.timerSvcOk = true)
    (h2 : env.timerCreateOk = true) (h3 : env.okRespOk = true)
    (h4 : env.afterOk = true) :
    finishHandler env t =
      { t with status := some 200, closureOk := true, restartArmed := true,
               restartDelaySecs := some 5 } := by
  unfold finishHandler
  rw [h1, h2, h3, h4]
  simp

theorem runLoop_isSome_of_reach (env : Env) (size : Nat) : ∀ (m : Nat) (st : LoopState),
    ((∃ i, i < m ∧ env.readAt (st.idx + i) = .err) ∨
      size ≤ st.total + sumFrom env st.idx m) →
    (runLoop env size (m + 1) st).isSome = true := by
  intro m
  induction m with
  | zero =>
    intro st h
    have htot : size ≤ st.total := by
      rcases h with ⟨i, hi, _⟩ | h
      · omega
      · simpa [sumFrom] using h
    rw [runLoop]
    cases hread : env.readAt st.idx with
    | err => simp
    | ok n =>
      simp only
      split
      · split
        · split
          · simp
          · omega
        · simp
      · split
        · simp
        · omega
  | succ m ih =>
    intro st h
    rw [runLoop]
    cases hread : env.readAt st.idx with
    | err => simp
    | ok n =>
      simp only
      split
      · split
        · split
          · simp
          · apply ih
            rcases h with ⟨i, hi, herr⟩ | hsum
            · rcases i with _ | i
              · rw [Nat.add_zero] at herr
                rw [herr] at hread
                cases hread
              · exact Or.inl ⟨i, by omega, by simpa [Nat.add_assoc, Nat.add_comm,
                  Nat.add_left_comm] using herr⟩
            · refine Or.inr ?hs
              have hs1 : sumFrom env st.idx (m + 1) =
                  readVal (env.readAt st.idx) + sumFrom env (st.idx + 1) m := rfl
              rw [hs1, hread] at hsum
              simp only [readVal] at hsum
              dsimp only
              omega
        · simp
      · split
        · simp
        · apply ih
          rcases h with ⟨i, hi, herr⟩ | hsum
          · rcases i with _ | i
            · rw [Nat.add_zero] at herr
              rw [herr] at hread
              cases hread
            · exact Or.inl ⟨i, by omega, by simpa [Nat.add_assoc, Nat.add_comm,
                Nat.add_left_comm] using herr⟩
          · refine Or.inr ?hs2
            have hs1 : sumFrom env st.idx (m + 1) =
                readVal (env.readAt st.idx) + sumFrom env (st.idx + 1) m := rfl
            rw [hs1, hread] at hsum
            simp only [readVal] at hsum
            dsimp only
            omega

theorem runLoop_bounds (env : Env) (size cap : Nat)
    (hcap : ∀ m, sumReads env m ≤ cap) :
    ∀ (fuel : Nat) (st : LoopState) (ex : LoopExit) (st' : LoopState),
    st.total = sumReads env st.idx → st.writes.sum ≤ st.total →
    runLoop env size fuel st = some (ex, st') →
    st'.total ≤ cap ∧ st'.writes.sum ≤ st'.total := by
  intro fuel
  induction fuel with
  | zero =>
    intro st ex st' _ _ h
    cases h
  | succ fuel ih =>
    intro st ex st' hinv hws h
    rw [runLoop] at h
    cases hread : env.readAt st.idx with
    | err =>
      rw [hread] at h
      simp only [Option.some.injEq, Prod.mk.injEq] at h
      obtain ⟨-, hst⟩ := h
      rw [← hst]
      constructor
      · calc st.total = sumReads env st.idx := hinv
          _ ≤ cap := hcap st.idx
      · exact hws
    | ok n =>
      rw [hread] at h
      have hstep : sumReads env (st.idx + 1) = sumReads env st.idx + n := by
        rw [sumReads_succ, hread]
        rfl
      dsimp only at h
      split at h
      · split at h
        · split at h
          · simp only [Option.some.injEq, Prod.mk.injEq] at h
            obtain ⟨-, hst⟩ := h
            rw [← hst]
            refine ⟨?ht, ?hw⟩
            case ht =>
              dsimp only
              calc st.total + n = sumReads env (st.idx + 1) := by omega
                _ ≤ cap := hcap (st.idx + 1)
            case hw =>
              dsimp only
              rw [List.sum_append]
              simp
              omega
          · refine ih _ ex st' ?hi ?hs h
            case hi =>
              dsimp only
              omega
            case hs =>
              dsimp only
              rw [List.sum_append]
              simp
              omega
        · simp only [Option.some.injEq, Prod.mk.injEq] at h
          obtain ⟨-, hst⟩ := h
          rw [← hst]
          refine ⟨?ht2, ?hw2⟩
          case ht2 =>
            dsimp only
            calc st.total + n = sumReads env (st.idx + 1) := by omega
              _ ≤ cap := hcap (st.idx + 1)
          case hw2 =>
            dsimp only
            omega
      · split at h
        · simp only [Option.some.injEq, Prod.mk.injEq] at h
          obtain ⟨-, hst⟩ := h
          rw [← hst]
          refine ⟨?ht3, ?hw3⟩
          case ht3 =>
            dsimp only
            calc st.total + n = sumReads env (st.idx + 1) := by omega
              _ ≤ cap := hcap (st.idx + 1)
          case hw3 =>
            dsimp only
            omega
        · refine ih _ ex st' ?hi2 ?hs2 h
          case hi2 =>
            dsimp only
            omega
          case hs2 =>
            dsimp only
            omega

theorem runLoop_completes (env : Env) (size : Nat)
    (hok : ∀ i, env.readAt i ≠ .err) (hw : ∀ k, env.writeOk k = true)
    (hc : env.completeOk = true) (hcap : ∀ j, sumReads env j ≤ size) :
    ∀ (m : Nat) (st : LoopState), st.total = sumReads env st.idx →
    sumReads env (st.idx + m) = size →
    ∃ st', runLoop env size (m + 1) st = some (.completed, st') := by
  intro m
  induction m with
  | zero =>
    intro st hinv hreach
    rw [Nat.add_zero] at hreach
    cases hread : env.readAt st.idx with
    | err => exact absurd hread (hok st.idx)
    | ok n =>
      have hstep : sumReads env (st.idx + 1) = sumReads env st.idx + n := by
        rw [sumReads_succ, hread]
        rfl
      have hn : n = 0 := by
        have := hcap (st.idx + 1)
        omega
      refine ⟨{ st with idx := st.idx + 1, total := st.total + n }, ?e⟩
      rw [runLoop, hread]
      dsimp only
      rw [if_neg (by omega), if_pos (by omega), if_pos hc]
  | succ m ih =>
    intro st hinv hreach
    cases hread : env.readAt st.idx with
    | err => exact absurd hread (hok st.idx)
    | ok n =>
      have hstep : sumReads env (st.idx + 1) = sumReads env st.idx + n := by
        rw [sumReads_succ, hread]
        rfl
      by_cases hfin : size ≤ st.total + n
      · by_cases hn : 0 < n
        · refine ⟨{ st with idx := st.idx + 1, total := st.total + n, wIdx := st.wIdx + 1, writes := st.writes ++ [n] }, ?e1⟩
          rw [runLoop, hread]
          dsimp only
          rw [if_pos hn, if_pos (hw st.wIdx), if_pos (by omega : size ≤ st.total + n),
            if_pos hc]
        · refine ⟨{ st with idx := st.idx + 1, total := st.total + n }, ?e2⟩
          rw [runLoop, hread]
          dsimp only
          rw [if_neg hn, if_pos (by omega : size ≤ st.total + n), if_pos hc]
      · have hreach2 : sumReads env (st.idx + 1 + m) = size := by
          have : st.idx + 1 + m = st.idx + (m + 1) := by omega
          rw [this]
          exact hreach
        by_cases hn : 0 < n
        · obtain ⟨st', he⟩ := ih { st with idx := st.idx + 1, total := st.total + n, wIdx := st.wIdx + 1, writes := st.writes ++ [n] } (by dsimp only; omega) (by dsimp only; exact hreach2)
          refine ⟨st', ?e3⟩
          rw [runLoop, hread]
          dsimp only
          rw [if_pos hn, if_pos (hw st.wIdx), if_neg (by omega : ¬ size ≤ st.total + n)]
          exact he
        · obtain ⟨st', he⟩ := ih { st with idx := st.idx + 1, total := st.total + n } (by dsimp only; omega) (by dsimp only; exact hreach2)
          refine ⟨st', ?e4⟩
          rw [runLoop, hread]
          dsimp only
          rw [if_neg hn, if_neg (by omega : ¬ size ≤ st.total + n)]
          exact he

theorem usize_id_of_le_cap (size : Nat) (h : ¬ OTA_PARTITION_SIZE < size) :
    size % USIZE_MOD = size := by
  have h1 : OTA_PARTITION_SIZE = 0x1f0000 := rfl
  have h2 : USIZE_MOD = 0x100000000 := rfl
  rw [h1] at h
  rw [h2]
  omega

theorem runLoop_zeroRead_none : ∀ (fuel : Nat) (st : LoopState), st.total = 0 →
    runLoop zeroReadEnv 1 fuel st = none := by
  intro fuel
  induction fuel with
  | zero => intro st _; rfl
  | succ fuel ih =>
    intro st h
    have hread : zeroReadEnv.readAt st.idx = .ok 0 := rfl
    rw [runLoop, hread]
    dsimp only
    rw [if_neg (by omega : ¬ 0 < 0), if_neg (by omega : ¬ 1 ≤ st.total + 0)]
    exact ih _ (by dsimp only; omega)

theorem finishHandler_armed_flags (env : Env) (t : Trace) (ht : t.restartArmed = false)
    (h : (finishHandler env t).restartArmed = true) :
    env.okRespOk = true ∧ env.timerSvcOk = true ∧ env.timerCreateOk = true ∧
      env.afterOk = true := by
  unfold finishHandler at h
  split at h
  · split at h
    · split at h
      · split at h
        · exact ⟨by assumption, by assumption, by assumption, by assumption⟩
        · simp_all
      · simp_all
    · simp_all
  · simp_all

end Esp

namespace Esp

/-! Claim theorems. -/

/-- C2 counterexample: the claim is false on the code. The declared length
is cast with `size as usize` before the capacity check, and `usize` is 32
bits on the target: a declared length of `2^32` (which exceeds the 0x1f0000
partition capacity) truncates to 0, passes the capacity check, and the
handler opens a transaction, commits it, and responds `200 OK` instead of
413. -/
theorem c2_counterexample :
    OTA_PARTITION_SIZE < 0x100000000 ∧
    (handleUpdate (octetRequest (some 0x100000000)) zeroReadEnv 1).map
      (fun t => (t.status, t.txOpened, t.commitCalls, t.restartArmed)) =
      some (some 200, true, 1, true) :=
  ⟨by norm_num [OTA_PARTITION_SIZE], rfl⟩

/-- C2 as amended: `handle_update` checks its validations in order and each
failure is a terminal early return with no storage action: a content type
different from `application/octet-stream` yields 415, an absent declared
body length yields 411, and a declared length whose value truncated to 32
bits (the `size as usize` cast on the 32-bit target) is greater than the
partition capacity (0x1f0000) yields 413; in these cases no transaction is
opened, nothing is written, no commit or abort happens, and no restart is
armed. A declared length of at least `2^32` whose low 32 bits are within
capacity passes the capacity check instead of being rejected. -/
theorem c2_amended (req : Request) (env : Env) (fuel : Nat)
    (hresp : env.statusRespOk = true) :
    (req.contentType ≠ some CONTENT_TYPE_OCTET_STEAM →
      (handleUpdate req env fuel).map
        (fun t => (t.status, t.txOpened, t.writes, t.commitCalls, t.abortCalls,
          t.restartArmed)) =
        some (some 415, false, [], 0, 0, false)) ∧
    (req.contentType = some CONTENT_TYPE_OCTET_STEAM → req.contentLen = none →
      (handleUpdate req env fuel).map
        (fun t => (t.status, t.txOpened, t.writes, t.commitCalls, t.abortCalls,
          t.restartArmed)) =
        some (some 411, false, [], 0, 0, false)) ∧
    (∀ len, req.contentType = some CONTENT_TYPE_OCTET_STEAM →
      req.contentLen = some len → OTA_PARTITION_SIZE < len % USIZE_MOD →
      (handleUpdate req env fuel).map
        (fun t => (t.status, t.txOpened, t.writes, t.commitCalls, t.abortCalls,
          t.restartArmed)) =
        some (some 413, false, [], 0, 0, false)) := by
  refine ⟨?p1, ?p2, ?p3⟩
  case p1 =>
    intro hct
    unfold handleUpdate
    rw [if_neg hct]
    simp [rejectTrace, hresp, STATUS_CODE_UNSUPPORTED_MEDIA_TYPE]
  case p2 =>
    intro hct hlen
    unfold handleUpdate
    rw [if_pos hct, hlen]
    simp [rejectTrace, hresp, STATUS_CODE_LENGTH_REQUIRED]
  case p3 =>
    intro len hct hlen hbig
    unfold handleUpdate
    rw [if_pos hct, hlen]
    simp only
    rw [if_pos hbig]
    simp [rejectTrace, hresp, STATUS_CODE_REQUEST_ENTITY_TO_LARGE]

/-- C2 witness: the amended statement at concrete requests: content type
`text/plain` gives 415; a missing length gives 411; a declared length of
0x200000, whose low 32 bits still exceed 0x1f0000, gives 413. -/
theorem c2_amended_witness :
    ((handleUpdate { contentType := some "text/plain", contentLen := some 10 }
        (allOkEnv fun _ => .ok 0) 1).map
      (fun t => (t.status, t.txOpened, t.writes, t.commitCalls, t.abortCalls,
        t.restartArmed)) = some (some 415, false, [], 0, 0, false)) ∧
    ((handleUpdate (octetRequest none) (allOkEnv fun _ => .ok 0) 1).map
      (fun t => (t.status, t.txOpened, t.writes, t.commitCalls, t.abortCalls,
        t.restartArmed)) = some (some 411, false, [], 0, 0, false)) ∧
    ((handleUpdate (octetRequest (some 0x200000)) (allOkEnv fun _ => .ok 0) 1).map
      (fun t => (t.status, t.txOpened, t.writes, t.commitCalls, t.abortCalls,
        t.restartArmed)) = some (some 413, false, [], 0, 0, false)) := by
  refine ⟨?w1, ?w2, ?w3⟩
  case w1 =>
    exact (c2_amended _ _ 1 rfl).1 (by simp [CONTENT_TYPE_OCTET_STEAM])
  case w2 =>
    exact (c2_amended _ _ 1 rfl).2.1 rfl rfl
  case w3 =>
    exact (c2_amended _ _ 1 rfl).2.2 0x200000 rfl rfl
      (by norm_num [OTA_PARTITION_SIZE, USIZE_MOD])

end Esp

namespace Esp

/-- C1 counterexample: the claim is false on the code. A valid request
(octet-stream, declared length 1000) whose second chunk write fails: the
handler calls `abort` once and never commits — but then `break`s out of the
loop into the common epilogue, so it responds `200 OK` (not a server error)
and arms the 5-second restart timer. -/
theorem c1_counterexample :
    (handleUpdate (octetRequest (some 1000))
        { allOkEnv (fun _ => .ok 400) with writeOk := fun k => k == 0 } 2).map
      (fun t => (t.abortCalls, t.commitCalls, t.status, t.restartArmed,
        t.restartDelaySecs, t.writes)) =
      some (1, 0, some 200, true, some 5, [400]) := by
  rfl

/-- C1 as amended: when the body stream triggers a write failure on the open
transaction (and the subsequent `abort` call succeeds), `handle_update`
aborts the transaction exactly once and performs no commit, but it does not
return early: it falls through to the common epilogue, and when the timer
and response operations succeed it responds `200 OK` and arms the 5-second
restart timer. -/
theorem c1_amended (req : Request) (env : Env) (fuel size : Nat) (st : LoopState)
    (hct : req.contentType = some CONTENT_TYPE_OCTET_STEAM)
    (hlen : req.contentLen = some size) (hsize : ¬ OTA_PARTITION_SIZE < size)
    (hq : env.otaQueryOk = true) (hi : env.initiateOk = true)
    (hloop : runLoop env size fuel initLoopState = some (.writeAborted, st))
    (h1 : env.timerSvcOk = true) (h2 : env.timerCreateOk = true)
    (h3 : env.okRespOk = true) (h4 : env.afterOk = true) :
    (handleUpdate req env fuel).map
      (fun t => (t.abortCalls, t.commitCalls, t.status, t.restartArmed,
        t.restartDelaySecs, t.writes)) =
      some (1, 0, some 200, true, some 5, st.writes) := by
  unfold handleUpdate
  rw [hct, if_pos rfl, hlen]
  simp only
  rw [usize_id_of_le_cap size hsize]
  rw [if_neg hsize, hq, if_pos rfl, hi, if_pos rfl, hloop]
  simp only
  rw [finishHandler_allOk env _ h1 h2 h3 h4]
  simp [loopTrace, commitCallsOf, abortCallsOf]

/-- C1 witness: the amended statement at the concrete counterexample
scenario (write failure at chunk 2 of a 1000-byte transfer). -/
theorem c1_amended_witness :
    (handleUpdate (octetRequest (some 1000))
        { allOkEnv (fun _ => .ok 400) with writeOk := fun k => k == 0 } 2).map
      (fun t => (t.abortCalls, t.commitCalls, t.status, t.restartArmed,
        t.restartDelaySecs, t.writes)) =
      some (1, 0, some 200, true, some 5,
        ({ idx := 2, total := 800, wIdx := 2, writes := [400] } : LoopState).writes) :=
  c1_amended (octetRequest (some 1000))
    { allOkEnv (fun _ => .ok 400) with writeOk := fun k => k == 0 } 2 1000
    { idx := 2, total := 800, wIdx := 2, writes := [400] }
    rfl rfl (by norm_num [OTA_PARTITION_SIZE]) rfl rfl rfl rfl rfl rfl rfl

end Esp

namespace Esp

/-- C3 counterexample: the claim is false on the code. For a declared size
of 1 and a body stream that is exhausted and yields only successful
zero-byte reads, the streaming loop of `handle_update` never terminates: no
amount of fuel makes it exit. -/
theorem c3_counterexample : ¬ loopTerminates zeroReadEnv 1 := by
  rintro ⟨fuel, h⟩
  rw [runLoop_zeroRead_none fuel initLoopState rfl] at h
  cases h

/-- C3 as amended: the streaming loop terminates for every input stream
that eventually either returns a read error or accumulates at least
`declared_size` bytes (by reaching the size, by a write failure along the
way, or by the read error); but on a stream that is exhausted and yields
only zero-byte reads before `declared_size` bytes have arrived the loop
does not terminate, so `handle_update` can block forever. -/
theorem c3_amended (env : Env) (size m : Nat)
    (h : (∃ i, i < m ∧ env.readAt i = .err) ∨ size ≤ sumReads env m) :
    (runLoop env size (m + 1) initLoopState).isSome = true := by
  apply runLoop_isSome_of_reach
  simpa [initLoopState, sumReads] using h

/-- C3 witness: a stream delivering 5 bytes per read terminates a 5-byte
transfer within two iterations of fuel. -/
theorem c3_amended_witness :
    (runLoop (allOkEnv fun _ => .ok 5) 5 (1 + 1) initLoopState).isSome = true :=
  c3_amended (allOkEnv fun _ => .ok 5) 5 1 (Or.inr (by decide))

/-- C4 counterexample: the claim is false on the code. A valid request
(octet-stream, declared length 10) whose first body read fails: the
transaction has been opened, and the handler returns (the `?` on
`request.read` propagates the error) with neither a commit nor an abort —
the transaction is dropped. -/
theorem c4_counterexample :
    (handleUpdate (octetRequest (some 10)) (allOkEnv fun _ => .err) 1).map
      (fun t => (t.txOpened, t.commitCalls, t.abortCalls, t.loopExit)) =
      some (true, 0, 0, some .readFailed) := by
  rfl

/-- C4 as amended: on every exit path of `handle_update` after a write
transaction has been opened, the transaction is either committed or
explicitly aborted before the handler returns — except the path where
reading a chunk from the request body fails, on which the handler returns
with the transaction neither committed nor aborted (it is silently
dropped). -/
theorem c4_amended (req : Request) (env : Env) (fuel : Nat) (t : Trace)
    (h : handleUpdate req env fuel = some t) (htx : t.txOpened = true) :
    t.commitCalls + t.abortCalls = 1 ∨
      (t.loopExit = some .readFailed ∧ t.commitCalls = 0 ∧ t.abortCalls = 0) := by
  unfold handleUpdate at h
  repeat (any_goals (first | split at h | dsimp only at h))
  all_goals try exact Option.noConfusion h
  all_goals simp only [Option.some.injEq] at h
  all_goals subst h
  all_goals first
    | simp [rejectTrace] at htx
    | simp [internalErrTrace] at htx
    | (left; simp [finishHandler_commitCalls, finishHandler_abortCalls, loopTrace,
        commitCallsOf, abortCallsOf]; done)
    | (right; simp [loopTrace, commitCallsOf, abortCallsOf]; done)

/-- C4 witness: the amended statement at a concrete read-failure input
(declared length 7, first read errors): the dropped-transaction disjunct
holds. -/
theorem c4_amended_witness :
    (loopTrace .readFailed { idx := 1, total := 0, wIdx := 0, writes := [] }).commitCalls +
      (loopTrace .readFailed { idx := 1, total := 0, wIdx := 0, writes := [] }).abortCalls = 1 ∨
    ((loopTrace .readFailed { idx := 1, total := 0, wIdx := 0, writes := [] }).loopExit =
        some .readFailed ∧
      (loopTrace .readFailed { idx := 1, total := 0, wIdx := 0, writes := [] }).commitCalls = 0 ∧
      (loopTrace .readFailed { idx := 1, total := 0, wIdx := 0, writes := [] }).abortCalls = 0) :=
  c4_amended (octetRequest (some 7)) (allOkEnv fun _ => .err) 1
    (loopTrace .readFailed { idx := 1, total := 0, wIdx := 0, writes := [] }) rfl rfl

end Esp

namespace Esp

theorem sumFrom_chunkReads (l : List Nat) : ∀ (m start : Nat),
    sumFrom (allOkEnv (chunkReads l)) start m = ((l.drop start).take m).sum := by
  intro m
  induction m with
  | zero => intro start; simp [sumFrom]
  | succ m ih =>
    intro start
    have h1 : sumFrom (allOkEnv (chunkReads l)) start (m + 1) =
        readVal ((allOkEnv (chunkReads l)).readAt start) +
          sumFrom (allOkEnv (chunkReads l)) (start + 1) m := rfl
    rw [h1, ih (start + 1)]
    have hr : readVal ((allOkEnv (chunkReads l)).readAt start) = l.getD start 0 := rfl
    rw [hr]
    by_cases hs : start < l.length
    · rw [List.drop_eq_getElem_cons hs, List.take_succ_cons, List.sum_cons]
      rw [List.getD_eq_getElem?_getD, List.getElem?_eq_getElem hs]
      rfl
    · have h2 : l.drop start = [] := List.drop_eq_nil_of_le (by omega)
      have h3 : l.drop (start + 1) = [] := List.drop_eq_nil_of_le (by omega)
      rw [h2, h3]
      rw [List.getD_eq_getElem?_getD, List.getElem?_eq_none (by omega)]
      simp

theorem sumReads_chunkReads (l : List Nat) (m : Nat) :
    sumReads (allOkEnv (chunkReads l)) m = (l.take m).sum := by
  have := sumFrom_chunkReads l m 0
  simpa [sumReads] using this

theorem sumReads_chunkReads_le (l : List Nat) (m : Nat) :
    sumReads (allOkEnv (chunkReads l)) m ≤ l.sum := by
  rw [sumReads_chunkReads]
  conv_rhs => rw [← List.take_append_drop m l]
  rw [List.sum_append]
  omega

theorem sumReads_zeroReadEnv : ∀ m, sumReads zeroReadEnv m = 0 := by
  intro m
  induction m with
  | zero => rfl
  | succ m ih =>
    rw [sumReads_succ, ih]
    rfl

/-- C5 counterexample: the claim is false on the code for adversarial
streams. With a declared size of 1 and a stream whose first read returns 5
bytes, the handler's byte counter reaches 5 > 1 and 5 bytes are written to
the open transaction: nothing in the handler truncates a read to the
declared size. -/
theorem c5_counterexample :
    ((handleUpdate (octetRequest (some 1)) (allOkEnv fun _ => .ok 5) 1).map
      (fun t => (t.totalBytes, t.writes)) = some (5, [5])) ∧ 1 < 5 :=
  ⟨rfl, by norm_num⟩

/-- C5 as amended: provided the stream never offers more than the declared
size in total (the bound the HTTP layer enforces via the Content-Length
header), the byte counter of `handle_update` never exceeds `declared_size`
and at most `declared_size` bytes are written to the open transaction; for
a stream that over-delivers, the counter and the written bytes can exceed
the declared size. -/
theorem c5_amended (req : Request) (env : Env) (fuel size : Nat) (t : Trace)
    (hlen : req.contentLen = some size)
    (hcap : ∀ m, sumReads env m ≤ size)
    (h : handleUpdate req env fuel = some t) :
    t.totalBytes ≤ size ∧ t.writes.sum ≤ size := by
  unfold handleUpdate at h
  rw [hlen] at h
  dsimp only at h
  repeat (any_goals (first | split at h | dsimp only at h))
  all_goals try exact Option.noConfusion h
  all_goals simp only [Option.some.injEq] at h
  all_goals subst h
  all_goals try (constructor <;> simp [rejectTrace, internalErrTrace])
  all_goals
    rename_i heq
    obtain ⟨hb1, hb2⟩ := runLoop_bounds env (size % USIZE_MOD) size hcap fuel
      initLoopState _ _ rfl (by simp [initLoopState]) heq
    constructor
    · simp only [finishHandler_totalBytes, loopTrace]
      omega
    · simp only [finishHandler_writes, loopTrace]
      omega

/-- C5 witness: the amended statement at a concrete conforming input
(declared size 0, exhausted stream): counter and written bytes stay at 0. -/
theorem c5_amended_witness :
    (finishHandler zeroReadEnv
        (loopTrace .completed { idx := 1, total := 0, wIdx := 0, writes := [] })).totalBytes ≤ 0 ∧
    (finishHandler zeroReadEnv
        (loopTrace .completed { idx := 1, total := 0, wIdx := 0, writes := [] })).writes.sum ≤ 0 :=
  c5_amended (octetRequest (some 0)) zeroReadEnv 1 0 _ rfl
    (fun m => Nat.le_of_eq (sumReads_zeroReadEnv m)) rfl

end Esp

namespace Esp

/-- C6: for every request that passes validation and whose stream delivers
exactly `declared_size` bytes (no read errors, cumulative delivery capped at
the declared size and reaching it) with no write failure and a working
epilogue, `handle_update` commits the transaction exactly once, never
aborts, responds `200 OK`, and arms the restart timer exactly once with the
fixed 5-second delay. -/
theorem c6_exact_delivery (req : Request) (env : Env) (size m : Nat)
    (hct : req.contentType = some CONTENT_TYPE_OCTET_STEAM)
    (hlen : req.contentLen = some size) (hsize : ¬ OTA_PARTITION_SIZE < size)
    (hq : env.otaQueryOk = true) (hi : env.initiateOk = true)
    (hok : ∀ i, env.readAt i ≠ .err) (hw : ∀ k, env.writeOk k = true)
    (hc : env.completeOk = true)
    (hcap : ∀ j, sumReads env j ≤ size) (hreach : sumReads env m = size)
    (h1 : env.timerSvcOk = true) (h2 : env.timerCreateOk = true)
    (h3 : env.okRespOk = true) (h4 : env.afterOk = true) :
    (handleUpdate req env (m + 1)).map
      (fun t => (t.commitCalls, t.abortCalls, t.status, t.restartArmed,
        t.restartDelaySecs, t.closureOk)) =
      some (1, 0, some 200, true, some 5, true) := by
  obtain ⟨st', he⟩ := runLoop_completes env size hok hw hc hcap m initLoopState rfl
    (by simpa [initLoopState] using hreach)
  unfold handleUpdate
  rw [hct, if_pos rfl, hlen]
  simp only
  rw [usize_id_of_le_cap size hsize]
  rw [if_neg hsize, hq, if_pos rfl, hi, if_pos rfl, he]
  simp only
  rw [finishHandler_allOk env _ h1 h2 h3 h4]
  simp [loopTrace, commitCallsOf, abortCallsOf]

/-- C6 witness: the concrete scenario of the claim — `declared_size =
1000`, stream delivering chunks of 400, 400 and 200 bytes and then only
zero-byte reads, all operations succeeding: one commit, no abort, `200 OK`,
restart armed with a 5-second delay. -/
theorem c6_exact_delivery_witness :
    (handleUpdate (octetRequest (some 1000))
        (allOkEnv (chunkReads [400, 400, 200])) (3 + 1)).map
      (fun t => (t.commitCalls, t.abortCalls, t.status, t.restartArmed,
        t.restartDelaySecs, t.closureOk)) =
      some (1, 0, some 200, true, some 5, true) :=
  c6_exact_delivery (octetRequest (some 1000)) (allOkEnv (chunkReads [400, 400, 200]))
    1000 3 rfl rfl (by norm_num [OTA_PARTITION_SIZE]) rfl rfl
    (fun i => by simp [allOkEnv, chunkReads])
    (fun k => rfl) rfl
    (fun j => by
      have := sumReads_chunkReads_le [400, 400, 200] j
      simpa using this)
    (by
      have := sumReads_chunkReads [400, 400, 200] 3
      simpa using this)
    rfl rfl rfl rfl

/-- C7 counterexample: the claim is false on the code. After a successful
commit (declared length 10, one 10-byte read, commit succeeds), a failing
`into_ok_response` makes the closure return early via `?` before
`reboot_timer.after` runs: the restart timer is not armed. -/
theorem c7_counterexample :
    (handleUpdate (octetRequest (some 10))
        { allOkEnv (fun _ => .ok 10) with okRespOk := false } 1).map
      (fun t => (t.commitCalls, t.status, t.restartArmed, t.restartDelaySecs)) =
      some (1, none, false, none) := by
  rfl

/-- C7 as amended: the restart timer is armed only when creating the timer
service, creating the timer, writing the HTTP success response, and the
arming call itself all succeed; in particular a failure of the response
write does prevent the restart from being scheduled. -/
theorem c7_amended (req : Request) (env : Env) (fuel : Nat) (t : Trace)
    (h : handleUpdate req env fuel = some t) (harm : t.restartArmed = true) :
    env.okRespOk = true ∧ env.timerSvcOk = true ∧ env.timerCreateOk = true ∧
      env.afterOk = true := by
  unfold handleUpdate at h
  repeat (any_goals (first | split at h | dsimp only at h))
  all_goals try exact Option.noConfusion h
  all_goals simp only [Option.some.injEq] at h
  all_goals subst h
  all_goals first
    | simp [rejectTrace] at harm
    | simp [internalErrTrace] at harm
    | exact finishHandler_armed_flags _ _ rfl harm
    | simp [loopTrace] at harm

/-- C7 witness: the amended statement at a concrete successful update (all
epilogue operations succeed and the timer is armed). -/
theorem c7_amended_witness :
    (allOkEnv fun _ => ReadResult.ok 10).okRespOk = true ∧
    (allOkEnv fun _ => ReadResult.ok 10).timerSvcOk = true ∧
    (allOkEnv fun _ => ReadResult.ok 10).timerCreateOk = true ∧
    (allOkEnv fun _ => ReadResult.ok 10).afterOk = true :=
  c7_amended (octetRequest (some 10)) (allOkEnv fun _ => .ok 10) 1
    (finishHandler (allOkEnv fun _ => .ok 10)
      (loopTrace .completed { idx := 1, total := 10, wIdx := 1, writes := [10] }))
    rfl rfl

end Esp

namespace Esp

/-- C9 (implicit): a `POST /update` request with content type
`application/octet-stream` and a declared body length of exactly 0 passes
all three validations; with succeeding storage, timer and response
operations the handler opens the transaction, performs exactly one body
read, writes whatever that read returned, commits exactly once, responds
`200 OK` and arms the 5-second restart — there is no minimum-size or
zero-length rejection. -/
theorem c9_zero_length (env : Env) (n : Nat)
    (hr : env.readAt 0 = .ok n) (hq : env.otaQueryOk = true) (hi : env.initiateOk = true)
    (hw : env.writeOk 0 = true) (hc : env.completeOk = true)
    (h1 : env.timerSvcOk = true) (h2 : env.timerCreateOk = true)
    (h3 : env.okRespOk = true) (h4 : env.afterOk = true) :
    (handleUpdate (octetRequest (some 0)) env 1).map
      (fun t => (t.txOpened, t.commitCalls, t.abortCalls, t.readCalls, t.restartArmed,
        t.restartDelaySecs, t.status, t.writes)) =
      some (true, 1, 0, 1, true, some 5, some 200, if 0 < n then [n] else []) := by
  by_cases hn : 0 < n
  · have hloop : runLoop env 0 1 initLoopState =
        some (.completed, { idx := 1, total := n, wIdx := 1, writes := [n] }) := by
      rw [runLoop, show env.readAt initLoopState.idx = .ok n from hr]
      simp only [initLoopState]
      rw [if_pos hn, show env.writeOk 0 = true from hw]
      simp [hc]
    unfold handleUpdate
    simp only [octetRequest]
    rw [if_pos trivial]
    simp only [Nat.zero_mod]
    rw [if_neg (by norm_num [OTA_PARTITION_SIZE]), hq, if_pos rfl, hi, if_pos rfl, hloop]
    dsimp only
    rw [finishHandler_allOk env _ h1 h2 h3 h4]
    simp [loopTrace, commitCallsOf, abortCallsOf, hn]
  · have hn0 : n = 0 := by omega
    subst hn0
    have hloop : runLoop env 0 1 initLoopState =
        some (.completed, { idx := 1, total := 0, wIdx := 0, writes := [] }) := by
      rw [runLoop, show env.readAt initLoopState.idx = .ok 0 from hr]
      simp [initLoopState, hc]
    unfold handleUpdate
    simp only [octetRequest]
    rw [if_pos trivial]
    simp only [Nat.zero_mod]
    rw [if_neg (by norm_num [OTA_PARTITION_SIZE]), hq, if_pos rfl, hi, if_pos rfl, hloop]
    dsimp only
    rw [finishHandler_allOk env _ h1 h2 h3 h4]
    simp [loopTrace, commitCallsOf, abortCallsOf]

/-- C9 witness: the zero-length request at a concrete stream whose first
read returns 7 bytes, all operations succeeding. -/
theorem c9_zero_length_witness :
    (handleUpdate (octetRequest (some 0)) (allOkEnv fun _ => .ok 7) 1).map
      (fun t => (t.txOpened, t.commitCalls, t.abortCalls, t.readCalls, t.restartArmed,
        t.restartDelaySecs, t.status, t.writes)) =
      some (true, 1, 0, 1, true, some 5, some 200, if 0 < 7 then [7] else []) :=
  c9_zero_length (allOkEnv fun _ => .ok 7) 7 rfl rfl rfl rfl rfl rfl rfl rfl rfl

/-- C10 (implicit): in the `main.rs` revision of the `/update` handler, a
request with an absent declared body length is not rejected: the missing
length is treated as a declared size of 0, a transaction is opened and
committed after the first body read, and the restart is armed; the revision
performs no content-type check (its result does not depend on the content
type at all), while the `http_server.rs` revision rejects the same request
during validation (411 with the octet-stream content type, 415 otherwise)
without opening a transaction — so the two revisions are not behaviorally
equivalent on validation. -/
theorem c10_main_revision (ct ct' : Option String) (env : Env) (n : Nat)
    (hresp : env.statusRespOk = true)
    (hr : env.readAt 0 = .ok n) (hq : env.otaQueryOk = true) (hi : env.initiateOk = true)
    (hw : env.writeOk 0 = true) (hc : env.completeOk = true)
    (h1 : env.timerSvcOk = true) (h2 : env.timerCreateOk = true)
    (h3 : env.okRespOk = true) (h4 : env.afterOk = true) :
    handleUpdateMain { contentType := ct, contentLen := none } env 1 =
      handleUpdateMain { contentType := ct', contentLen := none } env 1 ∧
    ((handleUpdateMain { contentType := ct, contentLen := none } env 1).map
      (fun t => (t.txOpened, t.commitCalls, t.readCalls, t.restartArmed,
        t.restartDelaySecs)) = some (true, 1, 1, true, some 5)) ∧
    ((handleUpdate { contentType := ct, contentLen := none } env 1).map
      (fun t => (t.txOpened, t.commitCalls, t.restartArmed, t.status)) =
      some (false, 0, false,
        some (if ct = some CONTENT_TYPE_OCTET_STEAM then 411 else 415))) := by
  refine ⟨rfl, ?p2, ?p3⟩
  case p2 =>
    have hrm : readAtMain env 0 = n := by
      unfold readAtMain
      rw [hr]
    by_cases hn : 0 < n
    · have hloop : runLoopMain env 0 1 initLoopState =
          some (.completed, { idx := 1, total := n, wIdx := 1, writes := [n] }) := by
        rw [runLoopMain]
        rw [show readAtMain env initLoopState.idx = n from hrm]
        simp only [initLoopState]
        rw [if_pos hn, show env.writeOk 0 = true from hw]
        simp [hc]
      unfold handleUpdateMain
      dsimp only
      simp only [Option.getD_none, Nat.zero_mod]
      rw [if_neg (by norm_num [OTA_PARTITION_SIZE]), hq, if_pos rfl, hi, if_pos rfl, hloop]
      dsimp only
      rw [finishHandler_allOk env _ h1 h2 h3 h4]
      simp [loopTrace, commitCallsOf, abortCallsOf]
    · have hn0 : n = 0 := by omega
      subst hn0
      have hloop : runLoopMain env 0 1 initLoopState =
          some (.completed, { idx := 1, total := 0, wIdx := 0, writes := [] }) := by
        rw [runLoopMain]
        rw [show readAtMain env initLoopState.idx = 0 from hrm]
        simp [initLoopState, hc]
      unfold handleUpdateMain
      dsimp only
      simp only [Option.getD_none, Nat.zero_mod]
      rw [if_neg (by norm_num [OTA_PARTITION_SIZE]), hq, if_pos rfl, hi, if_pos rfl, hloop]
      dsimp only
      rw [finishHandler_allOk env _ h1 h2 h3 h4]
      simp [loopTrace, commitCallsOf, abortCallsOf]
  case p3 =>
    by_cases hct : ct = some CONTENT_TYPE_OCTET_STEAM
    · simp [handleUpdate, hct, rejectTrace, hresp, STATUS_CODE_LENGTH_REQUIRED]
    · simp [handleUpdate, hct, rejectTrace, hresp, STATUS_CODE_UNSUPPORTED_MEDIA_TYPE]

/-- C10 witness: concrete content types `text/plain` and
`application/json`, a stream whose first read returns 7 bytes, all
operations succeeding. -/
theorem c10_main_revision_witness :
    handleUpdateMain { contentType := some "text/plain", contentLen := none }
        (allOkEnv fun _ => .ok 7) 1 =
      handleUpdateMain { contentType := some "application/json", contentLen := none }
        (allOkEnv fun _ => .ok 7) 1 ∧
    ((handleUpdateMain { contentType := some "text/plain", contentLen := none }
        (allOkEnv fun _ => .ok 7) 1).map
      (fun t => (t.txOpened, t.commitCalls, t.readCalls, t.restartArmed,
        t.restartDelaySecs)) = some (true, 1, 1, true, some 5)) ∧
    ((handleUpdate { contentType := some "text/plain", contentLen := none }
        (allOkEnv fun _ => .ok 7) 1).map
      (fun t => (t.txOpened, t.commitCalls, t.restartArmed, t.status)) =
      some (false, 0, false,
        some (if (some "text/plain" : Option String) = some CONTENT_TYPE_OCTET_STEAM
          then 411 else 415))) :=
  c10_main_revision (some "text/plain") (some "application/json")
    (allOkEnv fun _ => .ok 7) 7 rfl rfl rfl rfl rfl rfl rfl rfl rfl rfl

end Esp

namespace Esp

theorem shl_lor_eq_add (a b k : Nat) (h : b < 2 ^ k) :
    a <<< k ||| b = a * 2 ^ k + b := by
  rw [Nat.shiftLeft_eq, Nat.mul_comm a (2 ^ k), ← Nat.mul_add_lt_is_or h a]

theorem bytesToNumber_eq (b0 b1 b2 b3 b4 b5 : Nat) (hb1 : b1 < 256) (hb2 : b2 < 256)
    (hb3 : b3 < 256) (hb4 : b4 < 256) (hb5 : b5 < 256) :
    bytesToNumber [b0, b1, b2, b3, b4, b5] =
      ((((b0 * 256 + b1) * 256 + b2) * 256 + b3) * 256 + b4) * 256 + b5 := by
  have p8 : (2 : Nat) ^ 8 = 256 := by norm_num
  have p16 : (2 : Nat) ^ 16 = 65536 := by norm_num
  have p24 : (2 : Nat) ^ 24 = 16777216 := by norm_num
  have p32 : (2 : Nat) ^ 32 = 4294967296 := by norm_num
  have p40 : (2 : Nat) ^ 40 = 1099511627776 := by norm_num
  have e0 : bytesToNumber [b0, b1, b2, b3, b4, b5] =
      (((((0 ||| b0 <<< 40) ||| b1 <<< 32) ||| b2 <<< 24) ||| b3 <<< 16) ||| b4 <<< 8) |||
        b5 <<< 0 := rfl
  rw [e0, Nat.zero_or, Nat.shiftLeft_zero]
  simp only [Nat.lor_assoc]
  have s1 : b4 <<< 8 ||| b5 = b4 * 2 ^ 8 + b5 := shl_lor_eq_add _ _ _ (by omega)
  rw [s1]
  have s2 : b3 <<< 16 ||| (b4 * 2 ^ 8 + b5) = b3 * 2 ^ 16 + (b4 * 2 ^ 8 + b5) :=
    shl_lor_eq_add _ _ _ (by omega)
  rw [s2]
  have s3 : b2 <<< 24 ||| (b3 * 2 ^ 16 + (b4 * 2 ^ 8 + b5)) =
      b2 * 2 ^ 24 + (b3 * 2 ^ 16 + (b4 * 2 ^ 8 + b5)) :=
    shl_lor_eq_add _ _ _ (by omega)
  rw [s3]
  have s4 : b1 <<< 32 ||| (b2 * 2 ^ 24 + (b3 * 2 ^ 16 + (b4 * 2 ^ 8 + b5))) =
      b1 * 2 ^ 32 + (b2 * 2 ^ 24 + (b3 * 2 ^ 16 + (b4 * 2 ^ 8 + b5))) :=
    shl_lor_eq_add _ _ _ (by omega)
  rw [s4]
  have s5 : b0 <<< 40 |||
      (b1 * 2 ^ 32 + (b2 * 2 ^ 24 + (b3 * 2 ^ 16 + (b4 * 2 ^ 8 + b5)))) =
      b0 * 2 ^ 40 + (b1 * 2 ^ 32 + (b2 * 2 ^ 24 + (b3 * 2 ^ 16 + (b4 * 2 ^ 8 + b5)))) :=
    shl_lor_eq_add _ _ _ (by omega)
  rw [s5]
  omega

theorem toBase36Fuel_eq_digits : ∀ (fuel n : Nat), n ≤ fuel →
    toBase36Fuel fuel n = (Nat.digits 36 n).map tableAt := by
  intro fuel
  induction fuel with
  | zero =>
    intro n hn
    have h0 : n = 0 := by omega
    subst h0
    simp [toBase36Fuel]
  | succ fuel ih =>
    intro n hn
    by_cases h0 : 0 < n
    · rw [toBase36Fuel, if_pos h0]
      simp only [BASE]
      rw [Nat.digits_def' (by norm_num : 1 < 36) h0, List.map_cons]
      congr 1
      exact ih _ (by have := Nat.div_lt_self h0 (by norm_num : 1 < 36); omega)
    · have hz : n = 0 := by omega
      subst hz
      simp [toBase36Fuel]

theorem digits36_len_le_ten (v : Nat) (h : v < 36 ^ 10) :
    (Nat.digits 36 v).length ≤ 10 := by
  by_cases hv : v = 0
  · subst hv
    simp
  · by_contra hlen
    push_neg at hlen
    have hb := Nat.base_pow_length_digits_le 36 v (by norm_num) hv
    have h11 : (36 : Nat) ^ 11 ≤ 36 ^ (Nat.digits 36 v).length :=
      Nat.pow_le_pow_right (by norm_num) (by omega)
    have hle : (36 : Nat) ^ 11 ≤ 36 * v := le_trans h11 hb
    have h36 : (36 : Nat) ^ 11 = 36 * 36 ^ 10 := by ring
    omega

theorem tableAt_mem (i : Nat) (h : i < 36) : tableAt i ∈ ENCODING_TABLE := by
  interval_cases i <;> decide

/-- C8 counterexample: the claim is false on the code. The encoding table of
`src/base36.rs` lists the letters before the digits, so digit value 1 is
rendered as `'b'`, not `'1'`: `encode([0,0,0,0,0,1])` is `"b"`, and the
all-zero input yields the empty string rather than a non-empty one. -/
theorem c8_counterexample :
    encode [0, 0, 0, 0, 0, 1] = "b" ∧ encode [0, 0, 0, 0, 0, 1] ≠ "1" ∧
      encode [0, 0, 0, 0, 0, 0] = "" := by
  refine ⟨?a, ?b, ?c⟩ <;> decide

/-- C8 as amended: for every 6-byte input, `encode` returns the base-36
representation, most-significant digit first with no leading-zero padding,
of the input read as a big-endian 48-bit integer, rendered through the
table that maps digit values 0–25 to `'a'`–`'z'` and 26–35 to `'0'`–`'9'`:
a string of at most 10 characters drawn from that 36-symbol alphabet, which
is empty exactly when the value is 0 (so `encode([0,0,0,0,0,1])` is `"b"`,
and `encode` of six `0xFF` bytes is the rendering of `2^48 - 1`, of length
at most 10). -/
theorem c8_amended (input : List Nat) (hlen : input.length = 6)
    (hbytes : ∀ b ∈ input, b < 256) :
    encode input = String.mk (((Nat.digits 36 (beValue input)).map tableAt).reverse) ∧
    (encode input).data.length ≤ 10 ∧
    ((encode input).data = [] ↔ beValue input = 0) ∧
    ∀ c ∈ (encode input).data, c ∈ ENCODING_TABLE := by
  rcases input with _ | ⟨b0, input⟩
  · simp at hlen
  rcases input with _ | ⟨b1, input⟩
  · simp at hlen
  rcases input with _ | ⟨b2, input⟩
  · simp at hlen
  rcases input with _ | ⟨b3, input⟩
  · simp at hlen
  rcases input with _ | ⟨b4, input⟩
  · simp at hlen
  rcases input with _ | ⟨b5, input⟩
  · simp at hlen
  rcases input with _ | ⟨b6, input⟩
  swap
  · simp at hlen
  have hb0 : b0 < 256 := hbytes b0 (by simp)
  have hb1 : b1 < 256 := hbytes b1 (by simp)
  have hb2 : b2 < 256 := hbytes b2 (by simp)
  have hb3 : b3 < 256 := hbytes b3 (by simp)
  have hb4 : b4 < 256 := hbytes b4 (by simp)
  have hb5 : b5 < 256 := hbytes b5 (by simp)
  have hnum := bytesToNumber_eq b0 b1 b2 b3 b4 b5 hb1 hb2 hb3 hb4 hb5
  have hbe : beValue [b0, b1, b2, b3, b4, b5] =
      ((((b0 * 256 + b1) * 256 + b2) * 256 + b3) * 256 + b4) * 256 + b5 := by
    simp only [beValue, List.foldl]
    ring
  have hbv : bytesToNumber [b0, b1, b2, b3, b4, b5] = beValue [b0, b1, b2, b3, b4, b5] := by
    rw [hnum, hbe]
  have hv48 : bytesToNumber [b0, b1, b2, b3, b4, b5] < 2 ^ 48 := by
    have p48 : (2 : Nat) ^ 48 = 281474976710656 := by norm_num
    rw [hnum]
    omega
  have hv36 : bytesToNumber [b0, b1, b2, b3, b4, b5] < 36 ^ 10 := by
    have hcmp : (2 : Nat) ^ 48 ≤ 36 ^ 10 := by norm_num
    omega
  have he : encode [b0, b1, b2, b3, b4, b5] =
      String.mk (((Nat.digits 36 (bytesToNumber [b0, b1, b2, b3, b4, b5])).map
        tableAt).reverse) := by
    unfold encode
    rw [toBase36Fuel_eq_digits _ _ le_rfl]
  refine ⟨?e, ?len, ?empty, ?mem⟩
  case e =>
    rw [he, hbv]
  case len =>
    rw [he]
    simp only [String.mk]
    simp only [List.length_reverse, List.length_map]
    exact digits36_len_le_ten _ hv36
  case empty =>
    rw [he]
    simp only [String.mk]
    rw [List.reverse_eq_nil_iff, List.map_eq_nil_iff, Nat.digits_eq_nil_iff_eq_zero, hbv]
  case mem =>
    intro c hc
    rw [he] at hc
    simp only [String.mk] at hc
    rw [List.mem_reverse] at hc
    obtain ⟨d, hd, rfl⟩ := List.mem_map.mp hc
    exact tableAt_mem d (Nat.digits_lt_base (by norm_num) hd)

/-- C8 witness: the amended statement at the all-`0xFF` input — the
rendering of `2^48 - 1`, with at most 10 characters. -/
theorem c8_amended_witness :
    encode [255, 255, 255, 255, 255, 255] =
      String.mk (((Nat.digits 36 (beValue [255, 255, 255, 255, 255, 255])).map
        tableAt).reverse) ∧
    (encode [255, 255, 255, 255, 255, 255]).data.length ≤ 10 :=
  ⟨(c8_amended [255, 255, 255, 255, 255, 255] (by decide) (by decide)).1,
    (c8_amended [255, 255, 255, 255, 255, 255] (by decide) (by decide)).2.1⟩

end Esp
